import Mathlib

set_option maxHeartbeats 1000000

/-! Verification of the repository cargo-make-rpm (file src/main.rs).

A shallow embedding of the cargo subcommand that queries `cargo metadata`,
resolves a target triplet, runs `cargo build --release`, and then packages
every binary-producing workspace member into an RPM file.  External effects
(the filesystem, the child processes) enter the model as explicit oracle
inputs; machine strings are lists of characters so that splitting, joining
and containment are the ordinary list operations. -/

instance {ε α : Type} [DecidableEq ε] [DecidableEq α] : DecidableEq (Except ε α) := fun a b =>
  match a, b with
  | Except.ok a, Except.ok b =>
      if h : a = b then isTrue (by rw [h]) else isFalse (by simp [h])
  | Except.error a, Except.error b =>
      if h : a = b then isTrue (by rw [h]) else isFalse (by simp [h])
  | Except.ok _, Except.error _ => isFalse (by simp)
  | Except.error _, Except.ok _ => isFalse (by simp)

/-- Rust `String`s are modelled as lists of characters. -/
abbrev Str : Type := List Char

/-- Coerce a Lean string literal into the model type. -/
def str (s : String) : Str := s.toList

/-- A Unix path is absolute when it begins with `/` (`Path::is_absolute`). -/
def absolutePath : Str → Bool
  | [] => false
  | c :: _ => c == '/'

/-- Rust `Path::join`/`PathBuf::push`: when the right operand is absolute it
replaces the left operand entirely; otherwise it is appended, inserting a `/`
separator when the left operand is nonempty and lacks a trailing one. -/
def pathJoin (a b : Str) : Str :=
  if absolutePath b then b
  else if a.isEmpty then b
  else if a.getLast? == some '/' then a ++ b
  else a ++ '/' :: b

/-- Rust `Path::parent`: drop the final path component; `none` for the empty
path and for the root `/` (the cases in which `parent().unwrap()` panics). -/
def parentDir (p : Str) : Option Str :=
  if p.isEmpty || p == str "/" then none
  else
    match p.reverse.dropWhile (fun c => c != '/') with
    | [] => some []
    | ['/'] => some (str "/")
    | _ :: rest => some rest.reverse

/-- Model of `struct Triplet` (src/main.rs:89). -/
structure Triplet where
  arch : Str
  vendor : Str
  os : Str
  libc : Option Str
deriving DecidableEq

/-- Model of `Triplet::from_str` (src/main.rs:126): split on `-`, take the first three
pieces as arch/vendor/os and the fourth (when present) as libc; any later
pieces are silently dropped by the iterator.  `List.splitOn` always returns at
least one piece, so the first arm is unreachable. -/
def tripletFromStr (s : Str) : Except Str Triplet :=
  match s.splitOn '-' with
  | [] => Except.error (str "Invalid target triplet: No arch")
  | [_] => Except.error (str "Invalid target triplet: No vendor")
  | [_, _] => Except.error (str "Invalid target triplet: No os")
  | arch :: vendor :: os :: rest => Except.ok ⟨arch, vendor, os, rest.head?⟩

/-- Model of `impl Display for Triplet` (src/main.rs:114): `arch-vendor-os`, then `-libc`
when a libc flavour is present. -/
def Triplet.render (t : Triplet) : Str :=
  t.arch ++ '-' :: t.vendor ++ '-' :: t.os ++
    (match t.libc with
     | none => []
     | some l => '-' :: l)

/-- Result of `Triplet::rpm_arch`: a mapped architecture, the `None` of the
source (no mapping), or a Rust panic. -/
inductive ArchResult where
  | ok (a : Str)
  | unsupported
  | panic
deriving DecidableEq

/-- Model of `Triplet::rpm_arch` (src/main.rs:98).  The `"armv7" | "arm"` arm evaluates
`self.libc.as_ref().unwrap().ends_with("hf")` as a match guard, so a triplet
with no libc component panics there; when the guard merely fails, the match
falls through to the wildcard arm, which returns `None` (no arm/armv7 string
equals any of the later literals, so the fall-through lands on the wildcard). -/
def Triplet.rpmArch (t : Triplet) : ArchResult :=
  if t.arch == str "x86_64" then .ok (str "x86_64")
  else if t.arch == str "aarch64" then .ok (str "aarch64")
  else if t.arch == str "armv7" || t.arch == str "arm" then
    match t.libc with
    | none => .panic
    | some l => if (str "hf").isSuffixOf l then .ok (str "armhfp") else .unsupported
  else if t.arch == str "i386" then .ok (str "i386")
  else if t.arch == str "powerpc64" then .ok (str "ppc64")
  else if t.arch == str "powerpc64le" then .ok (str "ppc64le")
  else if t.arch == str "s390x" then .ok (str "s390x")
  else .unsupported

/-- Filesystem-entry kinds `pad_permission` distinguishes. -/
inductive FType where
  | file
  | dir
  | symlink
  | other
deriving DecidableEq

/-- Model of `pad_permission` (src/main.rs:145): stat the path (`fs::metadata`, modelled
by the oracle `fsType`, with `none` standing for an IO error) and OR the
entry-type bits into the requested mode. -/
def padPermission (mode : Nat) (filepath : Str) (fsType : Str → Option FType) :
    Except Str Nat :=
  match fsType filepath with
  | none => Except.error (str "io error")
  | some FType.file => Except.ok (0o100000 ||| mode)
  | some FType.dir => Except.ok (0o040000 ||| mode)
  | some FType.symlink => Except.ok (0o120000 ||| mode)
  | some FType.other => Except.error (str "invalid file type")

/-- Model of `u16::from_str_radix(mode, 8)` (src/main.rs:330): octal digits only and the
value must fit in 16 bits.  (Rust additionally accepts a leading `+` sign,
which no claim exercises and which is not modelled.) -/
def parseOctal (s : Str) : Option Nat :=
  if s.isEmpty then none
  else
    (s.foldl (fun acc c =>
      acc.bind fun n =>
        if '0' ≤ c ∧ c ≤ '7' then some (n * 8 + (c.toNat - '0'.toNat)) else none)
      (some 0)).bind fun n => if n < 65536 then some n else none

/-- Model of `enum Compression` (src/main.rs:80); serde names are lowercase, the
`#[default]` variant is gzip. -/
inductive Compression where
  | none
  | gzip
  | zstd
deriving DecidableEq

/-- Model of `struct Target` (src/main.rs:55). -/
structure Target where
  name : Str
  kind : List Str
deriving DecidableEq

/-- Model of `struct RPMOptions` (src/main.rs:41).  `compression` carries
`#[serde(default)]`, so after deserialization it is always present. -/
structure RPMOptions where
  compression : Compression
  signing_key : Option Str
  dependencies : Option (List Str)
  conflicts : Option (List Str)
  assets : Option (List (Str × Str × Str))
  preinstall : Option Str
  postinstall : Option Str
  preuninstall : Option Str
  postuninstall : Option Str
deriving DecidableEq

/-- Model of `struct Metadata` (src/main.rs:36). -/
structure Metadata where
  rpm : Option RPMOptions
deriving DecidableEq

/-- Model of `struct Package` (src/main.rs:22). -/
structure Package where
  name : Str
  version : Str
  license : Option Str
  description : Option Str
  authors : List Str
  targets : List Target
  manifest_path : Str
  metadata : Option Metadata
  homepage : Option Str
  repository : Option Str
deriving DecidableEq

/-- Model of `struct Manifest` (src/main.rs:15); `workspace_members` is never read. -/
structure Manifest where
  packages : List Package
  workspace_members : Option (List Str)
  workspace_root : Option Str
deriving DecidableEq

/-- Model of `struct Cli` (src/main.rs:61). -/
structure Cli where
  cargo_args : List Str
  compression : Option Compression
  package : Option Str
  target : Option Str
  signing_key : Option Str

/-- Oracles standing for the filesystem effects the packaging loop performs:
`fsType` is the file type reported by `fs::metadata` (`none` = IO error),
`withFileOk` tells whether `RPMBuilder::with_file` succeeds in reading a
source path, and `signKeyOk` tells whether reading the signing key,
loading it into a `Signer` and signing all succeed for a given key path. -/
structure Env where
  fsType : Str → Option FType
  withFileOk : Str → Bool
  signKeyOk : Str → Bool

/-- Per-run context: the packaging loop closes over: CLI values, the
workspace root, the resolved triplet and the effect oracles. -/
structure Ctx where
  cliTarget : Option Str
  cliSigningKey : Option Str
  cliCompression : Option Compression
  workspaceRoot : Option Str
  triplet : Triplet
  env : Env

/-- One file entry of the RPM spec: source path read at build time, install
path inside the package, and the (type-padded) mode. -/
structure FileEntry where
  source : Str
  dest : Str
  mode : Nat
deriving DecidableEq

/-- Package specification accumulated by the `rpm::RPMBuilder` calls. -/
structure RpmSpec where
  name : Str
  version : Str
  license : Str
  arch : Str
  description : Str
  compression : Compression
  vendor : Option Str
  url : Option Str
  vcs : Option Str
  files : List FileEntry
  preinstall : Option Str
  postinstall : Option Str
  preuninstall : Option Str
  postuninstall : Option Str
  dependencies : List Str
  conflicts : List Str
  signed : Bool
deriving DecidableEq

/-- An output artifact: the file path passed to `File::create` plus the
package written into it. -/
structure Artifact where
  path : Str
  spec : RpmSpec
deriving DecidableEq

/-- Result of one step of the program: a value, an `Err` propagated by `?`
(carrying its message), or a Rust panic. -/
inductive Outcome (α : Type) where
  | ok (a : α)
  | err (e : Str)
  | panic
deriving DecidableEq

/-- Eligibility check (src/main.rs:217): at least one target of kind `"bin"`. -/
def eligible (p : Package) : Bool :=
  p.targets.any fun t => t.kind.contains (str "bin")

/-- Computation of `crate_dir` (src/main.rs:225): the workspace root when declared, else the
parent directory of the manifest path of the member (`parent().unwrap()`: a `none`
parent is a panic, threaded through `processPackage`). -/
def crateDir (root : Option Str) (p : Package) : Option Str :=
  match root with
  | some r => some r
  | none => parentDir p.manifest_path

/-- Lookup of the packaging options, `package.metadata.as_ref().and_then(|m| m.rpm.as_ref())`
(src/main.rs:246). -/
def rpmOptions (p : Package) : Option RPMOptions :=
  p.metadata.bind fun m => m.rpm

/-- Compression resolution (src/main.rs:259): CLI override, else the declared
option of the member, else the serde default (gzip). -/
def resolveCompression (cli : Option Compression) (p : Package) : Compression :=
  cli.getD (((rpmOptions p).map fun r => r.compression).getD Compression.gzip)

/-- Output file name (src/main.rs:348), `<name>-<version>.<arch>.rpm`. -/
def artifactName (p : Package) (arch : Str) : Str :=
  p.name ++ str "-" ++ p.version ++ str "." ++ arch ++ str ".rpm"

/-- Error message produced for a member missing its license or description
(src/main.rs:251 and src/main.rs:256): the license check fires first and its
message is the fixed text `Missing license`; the description message names the
member. -/
def missingFieldMsg (p : Package) : Str :=
  match p.license with
  | none => str "Missing license"
  | some _ => str "Missing description in crate " ++ p.name

/-- Asset source path: the code stats and packages (src/main.rs:326):
`PathBuf::from(filename).join(&crate_dir)` — note the declared source is the
*left* operand of the join and `crate_dir` the right one. -/
def assetSourcePath (filename crate_dir : Str) : Str :=
  pathJoin filename crate_dir

/-- Signing-key path the code reads (src/main.rs:342):
`PathBuf::from(signing_key).join(crate_dir)` — again the key path is the left
operand of the join and `crate_dir` the right one. -/
def signingKeyPath (key crate_dir : Str) : Str :=
  pathJoin key crate_dir

/-- Loop over the `"bin"` targets (src/main.rs:284): for each target of kind `bin`,
attach `<base>/<target-name>` at `/usr/bin/<target-name>` with mode
`0o100755`; `with_file` reads the source and its failure aborts via `?`. -/
def binFiles (env : Env) (base : Str) : List Target → Except Str (List FileEntry)
  | [] => Except.ok []
  | t :: ts =>
    if t.kind.contains (str "bin") then
      let path := pathJoin base t.name
      if env.withFileOk path then
        (binFiles env base ts).map fun rest =>
          ⟨path, str "/usr/bin/" ++ t.name, 0o100755⟩ :: rest
      else Except.error (str "file error")
    else binFiles env base ts

/-- Loop over the declared assets (src/main.rs:324): for each declared
`(source, install-path, octal-mode)` triple, parse the mode
(`u16::from_str_radix(mode, 8)?`), pad it with the entry type found by stat
(`pad_permission(..)?`) and attach the file (`with_file(..)?`), in that
evaluation order. -/
def assetFiles (env : Env) (crate_dir : Str) :
    List (Str × Str × Str) → Except Str (List FileEntry)
  | [] => Except.ok []
  | (filename, asset, mode) :: rest =>
    let filepath := assetSourcePath filename crate_dir
    match parseOctal mode with
    | none => Except.error (str "invalid octal mode")
    | some m =>
      match padPermission m filepath env.fsType with
      | Except.error e => Except.error e
      | Except.ok m' =>
        if env.withFileOk filepath then
          (assetFiles env crate_dir rest).map fun es => ⟨filepath, asset, m'⟩ :: es
        else Except.error (str "file error")

/-- One iteration of the packaging loop for an eligible member
(src/main.rs:225-353), following the evaluation order of the source: crate directory,
build-output directory, architecture mapping, license, description,
compression, builder metadata, `"bin"` files, lifecycle scripts,
dependencies/conflicts, assets, signing-key resolution, then the output file
path `<rpm-dir>/<name>-<version>.<arch>.rpm`.  `fs::create_dir_all` and the
final `File::create`/`write` are assumed to succeed (their IO failures are not
modelled); everything the builder accumulates is returned in the artifact. -/
def processPackage (ctx : Ctx) (package : Package) : Outcome Artifact :=
  match crateDir ctx.workspaceRoot package with
  | none => Outcome.panic
  | some crate_dir =>
    let base := pathJoin crate_dir
      (str "target/" ++ (ctx.cliTarget.getD []) ++ str "/release")
    let rpm_path := pathJoin base (str "../rpm")
    match ctx.triplet.rpmArch with
    | ArchResult.panic => Outcome.panic
    | ArchResult.unsupported =>
        Outcome.err (str "Unsupported target arch: " ++ ctx.triplet.arch)
    | ArchResult.ok arch =>
      match package.license with
      | none => Outcome.err (str "Missing license")
      | some license =>
        match package.description with
        | none => Outcome.err (str "Missing description in crate " ++ package.name)
        | some description =>
          let compression := resolveCompression ctx.cliCompression package
          let options := rpmOptions package
          match binFiles ctx.env base package.targets with
          | Except.error e => Outcome.err e
          | Except.ok bins =>
            match assetFiles ctx.env crate_dir
                ((options.bind fun o => o.assets).getD []) with
            | Except.error e => Outcome.err e
            | Except.ok assets =>
              let signingKey :=
                ctx.cliSigningKey.or (options.bind fun o => o.signing_key)
              let spec : RpmSpec :=
                { name := package.name
                  version := package.version
                  license := license
                  arch := arch
                  description := description
                  compression := compression
                  vendor :=
                    if package.authors.isEmpty then none
                    else some (List.intercalate (str ", ") package.authors)
                  url := package.homepage
                  vcs := package.repository.map fun r => str "git:" ++ r
                  files := bins ++ assets
                  preinstall := options.bind fun o => o.preinstall
                  postinstall := options.bind fun o => o.postinstall
                  preuninstall := options.bind fun o => o.preuninstall
                  postuninstall := options.bind fun o => o.postuninstall
                  dependencies := (options.bind fun o => o.dependencies).getD []
                  conflicts := (options.bind fun o => o.conflicts).getD []
                  signed := signingKey.isSome }
              match signingKey with
              | some key =>
                  if ctx.env.signKeyOk (signingKeyPath key crate_dir) then
                    Outcome.ok ⟨pathJoin rpm_path (artifactName package arch), spec⟩
                  else Outcome.err (str "signing error")
              | none =>
                  Outcome.ok ⟨pathJoin rpm_path (artifactName package arch), spec⟩

/-- Why a run stopped: a propagated `Err` (the process exits with it) or a
panic. -/
inductive StopReason where
  | err (e : Str)
  | panic
deriving DecidableEq

/-- Member loop (src/main.rs:216): skip ineligible members; process the
rest in manifest order; the first `Err` or panic stops the loop, keeping the
artifacts already written (the code never deletes or rewrites an earlier
output file). -/
def runLoop (ctx : Ctx) : List Package → List Artifact × Option StopReason
  | [] => ([], none)
  | p :: ps =>
    if eligible p then
      match processPackage ctx p with
      | Outcome.ok a =>
          let r := runLoop ctx ps
          (a :: r.1, r.2)
      | Outcome.err e => ([], some (StopReason.err e))
      | Outcome.panic => ([], some StopReason.panic)
    else runLoop ctx ps

/-- Member-name filter (src/main.rs:214):
`args.package.as_ref().map_or(true, |n| &p.name == n)`. -/
def matchesFilter (filter : Option Str) (p : Package) : Bool :=
  match filter with
  | none => true
  | some n => p.name == n

/-- External inputs of the whole run: parsed CLI, the parse result of the
`cargo metadata` output (`none` = `serde_json` failure), the capture of the
`host: (.*)` regex over the `rustc --version --verbose` report (`none` = no
match or a failed invocation), whether spawning/waiting on `cargo build`
succeeded at the OS level, the exit status of the build, and the filesystem
oracles. -/
structure MainInput where
  cli : Cli
  manifestRaw : Option Manifest
  autodetect : Option Str
  buildSpawnOk : Bool
  buildExit : Nat
  env : Env

/-- Context that `main` hands to the packaging loop. -/
def mkCtx (w : MainInput) (m : Manifest) (t : Triplet) : Ctx :=
  { cliTarget := w.cli.target
    cliSigningKey := w.cli.signing_key
    cliCompression := w.cli.compression
    workspaceRoot := m.workspace_root
    triplet := t
    env := w.env }

/-- Model of `main` (src/main.rs:158): parse the metadata, resolve the target string
(CLI value or autodetection, then `.unwrap()` — a panic when both are absent),
parse the triplet, warn (non-fatally) when the OS is not linux, run
`cargo build --release` (`spawn()?.wait()?` — the exit status `w.buildExit` is
never consulted), then filter the members by name and run the packaging loop.
The result is the list of artifacts written and the reason the run stopped, if
it did. -/
def mainRun (w : MainInput) : List Artifact × Option StopReason :=
  match w.manifestRaw with
  | none => ([], some (StopReason.err (str "manifest parse error")))
  | some manifest =>
    match w.cli.target.or w.autodetect with
    | none => ([], some StopReason.panic)
    | some targetStr =>
      match tripletFromStr targetStr with
      | Except.error e => ([], some (StopReason.err e))
      | Except.ok triplet =>
        if w.buildSpawnOk then
          runLoop (mkCtx w manifest triplet)
            (manifest.packages.filter (matchesFilter w.cli.package))
        else ([], some (StopReason.err (str "io error")))

/-- An effect world in which every stat reports a regular file and every read,
signing and `with_file` succeeds. -/
def envAllOk : Env :=
  { fsType := fun _ => some FType.file
    withFileOk := fun _ => true
    signKeyOk := fun _ => true }

/-- A CLI invocation with an explicit target and a member filter, no other
flags. -/
def cliFor (filter : Option Str) (target : Option Str) : Cli :=
  { cargo_args := [], compression := none, package := filter
    target := target, signing_key := none }

/-- A minimal well-formed member with one `bin` target. -/
def samplePkg (name : String) : Package :=
  { name := str name
    version := str "1"
    license := some (str "MIT")
    description := some (str "demo")
    authors := []
    targets := [⟨str name, [str "bin"]⟩]
    manifest_path := str "/w/m/Cargo.toml"
    metadata := none
    homepage := none
    repository := none }

/-- A two-member workspace manifest rooted at `/w`. -/
def sampleManifest : Manifest :=
  { packages := [samplePkg "alpha", samplePkg "beta"]
    workspace_members := none
    workspace_root := some (str "/w") }

/-- Triplet of `x86_64-unknown-linux-gnu`. -/
def sampleTriplet : Triplet :=
  ⟨str "x86_64", str "unknown", str "linux", some (str "gnu")⟩

/-- A packaging context over the workspace root `/w` with an explicit target
and no CLI overrides. -/
def sampleCtx : Ctx :=
  { cliTarget := some (str "x86_64-unknown-linux-gnu")
    cliSigningKey := none
    cliCompression := none
    workspaceRoot := some (str "/w")
    triplet := sampleTriplet
    env := envAllOk }

/-- An eligible member named `mypkg` whose license is absent. -/
def pkgNoLicense : Package :=
  { samplePkg "mypkg" with license := none }

/-- Input of a run over the two-member workspace with an explicit target and
the member filter `alpha`. -/
def filteredRunInput : MainInput :=
  { cli := cliFor (some (str "alpha")) (some (str "x86_64-unknown-linux-gnu"))
    manifestRaw := some sampleManifest
    autodetect := none
    buildSpawnOk := true
    buildExit := 0
    env := envAllOk }

/-- A three-member workspace whose second member lacks a license. -/
def abortManifest : Manifest :=
  { packages := [samplePkg "alpha", pkgNoLicense, samplePkg "gamma"]
    workspace_members := none
    workspace_root := some (str "/w") }

/-- Input of an unfiltered run over `abortManifest` with an explicit target. -/
def abortRunInput : MainInput :=
  { cli := cliFor none (some (str "x86_64-unknown-linux-gnu"))
    manifestRaw := some abortManifest
    autodetect := none
    buildSpawnOk := true
    buildExit := 0
    env := envAllOk }


/-- Every successful `processPackage` writes to the path
`<crate-dir>/target/<cli-target-or-empty>/release/../rpm/<name>-<version>.<arch>.rpm`. -/
theorem processPackage_ok_path (ctx : Ctx) (p : Package) (a : Artifact)
    (h : processPackage ctx p = Outcome.ok a) :
    ∃ cd arch, crateDir ctx.workspaceRoot p = some cd ∧
      ctx.triplet.rpmArch = ArchResult.ok arch ∧
      a.path = pathJoin (pathJoin (pathJoin cd
        (str "target/" ++ (ctx.cliTarget.getD []) ++ str "/release"))
        (str "../rpm")) (artifactName p arch) := by
  unfold processPackage at h
  cases hcd : crateDir ctx.workspaceRoot p with
  | none => rw [hcd] at h; cases h
  | some cd =>
    rw [hcd] at h
    simp only at h
    cases harch : ctx.triplet.rpmArch with
    | panic => rw [harch] at h; cases h
    | unsupported => rw [harch] at h; cases h
    | ok arch =>
      rw [harch] at h
      simp only at h
      refine ⟨cd, arch, rfl, rfl, ?_⟩
      cases hl : p.license with
      | none => rw [hl] at h; cases h
      | some license =>
        rw [hl] at h
        cases hd : p.description with
        | none => rw [hd] at h; cases h
        | some description =>
          rw [hd] at h
          simp only at h
          cases hb : binFiles ctx.env
              (pathJoin cd (str "target/" ++ (ctx.cliTarget.getD []) ++ str "/release"))
              p.targets with
          | error e => rw [hb] at h; cases h
          | ok bins =>
            rw [hb] at h
            simp only at h
            cases ha : assetFiles ctx.env cd (((rpmOptions p).bind fun o => o.assets).getD []) with
            | error e => rw [ha] at h; cases h
            | ok assets =>
              rw [ha] at h
              simp only at h
              cases hk : ctx.cliSigningKey.or ((rpmOptions p).bind fun o => o.signing_key) with
              | none =>
                rw [hk] at h
                simp only at h
                cases h
                rfl
              | some key =>
                rw [hk] at h
                simp only at h
                by_cases hs : ctx.env.signKeyOk (signingKeyPath key cd) = true
                · rw [if_pos hs] at h
                  cases h
                  rfl
                · rw [if_neg hs] at h
                  cases h

/-- A run of the loop that stopped for no reason processed exactly the
eligible members, in order, one artifact each. -/
theorem runLoop_success (ctx : Ctx) (ps : List Package) (ws : List Artifact)
    (h : runLoop ctx ps = (ws, none)) :
    List.Forall₂ (fun q a => processPackage ctx q = Outcome.ok a)
      (ps.filter eligible) ws := by
  induction ps generalizing ws with
  | nil =>
    simp only [runLoop, Prod.mk.injEq] at h
    rw [← h.1]
    exact List.Forall₂.nil
  | cons p ps ih =>
    cases he : eligible p with
    | false =>
      simp only [runLoop, he, Bool.false_eq_true, if_false] at h
      simpa [List.filter_cons, he] using ih ws h
    | true =>
      simp only [runLoop, he, if_true] at h
      cases hp : processPackage ctx p with
      | ok a =>
        rw [hp] at h
        simp only [Prod.mk.injEq] at h
        have h2 : runLoop ctx ps = ((runLoop ctx ps).1, none) := by
          rw [← h.2]
        have := ih (runLoop ctx ps).1 h2
        rw [← h.1]
        have hcons : List.Forall₂ (fun q a => processPackage ctx q = Outcome.ok a)
            (p :: List.filter eligible ps) (a :: (runLoop ctx ps).1) :=
          List.Forall₂.cons hp this
        simpa [List.filter_cons, he] using hcons
      | err e => rw [hp] at h; simp at h
      | panic => rw [hp] at h; simp at h

/-- Every artifact a loop run produces comes from an eligible member of the
list that processed successfully. -/
theorem runLoop_writes (ctx : Ctx) (ps : List Package) (ws : List Artifact)
    (stop : Option StopReason) (h : runLoop ctx ps = (ws, stop)) :
    ∀ a ∈ ws, ∃ q, q ∈ ps ∧ eligible q = true ∧ processPackage ctx q = Outcome.ok a := by
  induction ps generalizing ws stop with
  | nil =>
    simp only [runLoop, Prod.mk.injEq] at h
    rw [← h.1]
    intro a ha
    cases ha
  | cons p ps ih =>
    cases he : eligible p with
    | false =>
      simp only [runLoop, he, Bool.false_eq_true, if_false] at h
      intro a ha
      obtain ⟨q, hq, hqe, hqa⟩ := ih ws stop h a ha
      exact ⟨q, List.mem_cons_of_mem _ hq, hqe, hqa⟩
    | true =>
      simp only [runLoop, he, if_true] at h
      cases hp : processPackage ctx p with
      | ok b =>
        rw [hp] at h
        simp only [Prod.mk.injEq] at h
        intro a ha
        rw [← h.1] at ha
        cases ha with
        | head =>
          exact ⟨p, List.mem_cons_self _ _, he, hp⟩
        | tail _ hmem =>
          have h2 : runLoop ctx ps = ((runLoop ctx ps).1, (runLoop ctx ps).2) := rfl
          obtain ⟨q, hq, hqe, hqa⟩ := ih (runLoop ctx ps).1 (runLoop ctx ps).2 h2 a hmem
          exact ⟨q, List.mem_cons_of_mem _ hq, hqe, hqa⟩
      | err e =>
        rw [hp] at h
        simp only [Prod.mk.injEq] at h
        intro a ha
        rw [← h.1] at ha
        cases ha
      | panic =>
        rw [hp] at h
        simp only [Prod.mk.injEq] at h
        intro a ha
        rw [← h.1] at ha
        cases ha

/-- A loop whose members up to some point all process successfully and whose
next member fails with an error stops with exactly that error, keeping exactly
the artifacts of the earlier eligible members and producing nothing for the
failing member or for any member after it. -/
theorem runLoop_stops (ctx : Ctx) (ps₁ : List Package) (p : Package)
    (ps₂ : List Package) (e : Str)
    (hok : ∀ q ∈ ps₁, eligible q = true → ∃ a, processPackage ctx q = Outcome.ok a)
    (hel : eligible p = true)
    (herr : processPackage ctx p = Outcome.err e) :
    ∃ ws, runLoop ctx (ps₁ ++ p :: ps₂) = (ws, some (StopReason.err e)) ∧
      List.Forall₂ (fun q a => processPackage ctx q = Outcome.ok a)
        (ps₁.filter eligible) ws := by
  induction ps₁ with
  | nil =>
    refine ⟨[], ?_, List.Forall₂.nil⟩
    simp [runLoop, hel, herr]
  | cons q qs ih =>
    obtain ⟨ws, hrun, hfa⟩ := ih fun r hr => hok r (List.mem_cons_of_mem _ hr)
    cases he : eligible q with
    | false =>
      refine ⟨ws, ?_, ?_⟩
      · simpa [runLoop, he] using hrun
      · simpa [List.filter_cons, he] using hfa
    | true =>
      obtain ⟨a, ha⟩ := hok q (List.mem_cons_self _ _) he
      refine ⟨a :: ws, ?_, ?_⟩
      · simp [runLoop, he, ha, hrun]
      · have hcons : List.Forall₂ (fun q a => processPackage ctx q = Outcome.ok a)
            (q :: List.filter eligible qs) (a :: ws) :=
          List.Forall₂.cons ha hfa
        simpa [List.filter_cons, he] using hcons

/-- Under a parsed manifest, a resolved target string, a parsed triplet and a
successful build spawn, `main` is the packaging loop over the name-filtered
members. -/
theorem mainRun_loop (w : MainInput) (m : Manifest) (ts : Str) (tr : Triplet)
    (hm : w.manifestRaw = some m)
    (hts : w.cli.target.or w.autodetect = some ts)
    (htr : tripletFromStr ts = Except.ok tr)
    (hb : w.buildSpawnOk = true) :
    mainRun w =
      runLoop (mkCtx w m tr) (m.packages.filter (matchesFilter w.cli.package)) := by
  unfold mainRun
  rw [hm]
  simp only
  rw [hts]
  simp only
  rw [htr]
  simp only
  rw [hb]
  simp

/-- A member whose license or description is absent fails with the
corresponding missing-field message, provided its crate directory and the
architecture mapping resolve (both checks precede the field checks in the
source). -/
theorem processPackage_missing (ctx : Ctx) (p : Package) (cd : Str) (arch : Str)
    (hcd : crateDir ctx.workspaceRoot p = some cd)
    (harch : ctx.triplet.rpmArch = ArchResult.ok arch)
    (hmiss : p.license = none ∨ p.description = none) :
    processPackage ctx p = Outcome.err (missingFieldMsg p) := by
  unfold processPackage
  rw [hcd]
  simp only
  rw [harch]
  simp only
  cases hl : p.license with
  | none => simp [missingFieldMsg, hl]
  | some license =>
    cases hd : p.description with
    | none => simp [missingFieldMsg, hl, hd]
    | some d =>
      rcases hmiss with h | h
      · rw [hl] at h; cases h
      · rw [hd] at h; cases h

/-- Claim C3: for every permission value and path, the asset mode resolver
returns the requested bits ORed with the type bits of the entry reported at
the path by the stat — `0o100000` for a regular file, `0o040000` for a
directory, `0o120000` for a symbolic link — and errors with the
invalid-file-type message for every other entry kind. -/
theorem c3_pad_permission (mode : Nat) (filepath : Str) (fsType : Str → Option FType) :
    (fsType filepath = some FType.file →
      padPermission mode filepath fsType = Except.ok (0o100000 ||| mode)) ∧
    (fsType filepath = some FType.dir →
      padPermission mode filepath fsType = Except.ok (0o040000 ||| mode)) ∧
    (fsType filepath = some FType.symlink →
      padPermission mode filepath fsType = Except.ok (0o120000 ||| mode)) ∧
    (fsType filepath = some FType.other →
      padPermission mode filepath fsType = Except.error (str "invalid file type")) := by
  refine ⟨?_, ?_, ?_, ?_⟩ <;> intro h <;> simp [padPermission, h]

/-- Witness for C3 at the concrete inputs of the spec: requested `0o644` on a
regular file yields `0o100644`, requested `0o755` on a directory yields
`0o040755`, a symbolic link yields `0o120000` ORed in, and a named pipe is an
invalid-file-type error. -/
theorem c3_pad_permission_witness :
    padPermission 0o644 (str "/w/f") (fun _ => some FType.file) = Except.ok 0o100644 ∧
    padPermission 0o755 (str "/w/d") (fun _ => some FType.dir) = Except.ok 0o040755 ∧
    padPermission 0o644 (str "/w/l") (fun _ => some FType.symlink) =
      Except.ok (0o120000 ||| 0o644) ∧
    padPermission 0o644 (str "/w/p") (fun _ => some FType.other) =
      Except.error (str "invalid file type") := by
  have hf := (c3_pad_permission 0o644 (str "/w/f") (fun _ => some FType.file)).1 rfl
  have hd := (c3_pad_permission 0o755 (str "/w/d") (fun _ => some FType.dir)).2.1 rfl
  have hl := (c3_pad_permission 0o644 (str "/w/l") (fun _ => some FType.symlink)).2.2.1 rfl
  have hp := (c3_pad_permission 0o644 (str "/w/p") (fun _ => some FType.other)).2.2.2 rfl
  refine ⟨?_, ?_, hl, hp⟩
  · rw [hf]
    decide
  · rw [hd]
    decide

/-- Claim C5, falsified by the code: the architecture mapping is not total on
parsed triplets.  The string `arm-unknown-linux` parses successfully to a
triplet with arch `arm` and no libc component, and on it `rpm_arch` panics on
`self.libc.as_ref().unwrap()` instead of returning an `UnsupportedArch`
error; the tabulated mappings themselves do hold, as the remaining conjuncts
show. -/
theorem c5_arm_no_libc_panics :
    tripletFromStr (str "arm-unknown-linux") =
      Except.ok ⟨str "arm", str "unknown", str "linux", none⟩ ∧
    Triplet.rpmArch ⟨str "arm", str "unknown", str "linux", none⟩ = ArchResult.panic ∧
    Triplet.rpmArch ⟨str "arm", str "unknown", str "linux", none⟩ ≠
      ArchResult.unsupported ∧
    Triplet.rpmArch ⟨str "x86_64", str "unknown", str "linux", some (str "gnu")⟩ =
      ArchResult.ok (str "x86_64") ∧
    Triplet.rpmArch ⟨str "aarch64", str "unknown", str "linux", some (str "gnu")⟩ =
      ArchResult.ok (str "aarch64") ∧
    Triplet.rpmArch ⟨str "arm", str "unknown", str "linux", some (str "gnueabihf")⟩ =
      ArchResult.ok (str "armhfp") ∧
    Triplet.rpmArch ⟨str "armv7", str "unknown", str "linux", some (str "gnueabi")⟩ =
      ArchResult.unsupported ∧
    Triplet.rpmArch ⟨str "powerpc64", str "unknown", str "linux", some (str "gnu")⟩ =
      ArchResult.ok (str "ppc64") ∧
    Triplet.rpmArch ⟨str "powerpc64le", str "unknown", str "linux", some (str "gnu")⟩ =
      ArchResult.ok (str "ppc64le") ∧
    Triplet.rpmArch ⟨str "riscv64", str "unknown", str "linux", some (str "gnu")⟩ =
      ArchResult.unsupported := by
  decide

/-- Claim C2, falsified by the code: line 326 computes
`PathBuf::from(filename).join(&crate_dir)`, with the declared source as the
left operand of the join, so for the member-relative source `asset.txt` and
the absolute crate directory `/work` the path the code stats and packages is
`/work` itself — the declared name is discarded, because an absolute right
operand of a Rust path join replaces the left — and not the claimed
`/work/asset.txt`.  Line 342 reads the member-declared signing key from the
same reversed join. -/
theorem c2_asset_path_join_reversed :
    assetSourcePath (str "asset.txt") (str "/work") = str "/work" ∧
    pathJoin (str "/work") (str "asset.txt") = str "/work/asset.txt" ∧
    assetSourcePath (str "asset.txt") (str "/work") ≠
      pathJoin (str "/work") (str "asset.txt") ∧
    assetFiles
        { fsType := fun _ => some FType.file
          withFileOk := fun _ => true
          signKeyOk := fun _ => true }
        (str "/work") [(str "asset.txt", str "/usr/share/doc/a", str "644")] =
      Except.ok [⟨str "/work", str "/usr/share/doc/a", 0o100644⟩] ∧
    signingKeyPath (str "key.asc") (str "/work") = str "/work" := by
  refine ⟨rfl, rfl, ?_, ?_, rfl⟩
  · decide
  · decide

/-- Counterexample to claim C8: parsing is not losslessly invertible on all
successfully parsed strings.  `x86_64-unknown-linux-gnu-extra` has five
hyphen-delimited segments; it parses successfully (the iterator never looks at
the fifth segment) and re-serializes to `x86_64-unknown-linux-gnu`, not to the
original string. -/
theorem c8_roundtrip_cex :
    tripletFromStr (str "x86_64-unknown-linux-gnu-extra") =
      Except.ok ⟨str "x86_64", str "unknown", str "linux", some (str "gnu")⟩ ∧
    Triplet.render ⟨str "x86_64", str "unknown", str "linux", some (str "gnu")⟩ =
      str "x86_64-unknown-linux-gnu" ∧
    Triplet.render ⟨str "x86_64", str "unknown", str "linux", some (str "gnu")⟩ ≠
      str "x86_64-unknown-linux-gnu-extra" := by
  refine ⟨by decide, rfl, by decide⟩

/-- Claim C8 as amended: parsing `x86_64-unknown-linux-gnu` yields
arch `x86_64`, vendor `unknown`, os `linux`, libc `gnu`; and re-serialization
reproduces the original string for every successfully parsed input with at
most four hyphen-delimited segments (with five or more, the segments past the
fourth are dropped, as the counterexample shows). -/
theorem c8_parse_roundtrip :
    (tripletFromStr (str "x86_64-unknown-linux-gnu") =
      Except.ok ⟨str "x86_64", str "unknown", str "linux", some (str "gnu")⟩) ∧
    ∀ (s : Str) (t : Triplet), tripletFromStr s = Except.ok t →
      (s.splitOn '-').length ≤ 4 → t.render = s := by
  constructor
  · decide
  · intro s t h hlen
    have hs := List.intercalate_splitOn s '-'
    unfold tripletFromStr at h
    rcases hsp : s.splitOn '-' with _ | ⟨a, _ | ⟨b, _ | ⟨c, rest⟩⟩⟩
    · rw [hsp] at h; cases h
    · rw [hsp] at h; cases h
    · rw [hsp] at h; cases h
    · rw [hsp] at h
      simp only [Except.ok.injEq] at h
      subst h
      rw [hsp] at hs hlen
      rcases rest with _ | ⟨d, rest'⟩
      · rw [← hs]
        simp [Triplet.render, List.intercalate, List.intersperse]
      · rcases rest' with _ | ⟨e, rest''⟩
        · rw [← hs]
          simp [Triplet.render, List.intercalate, List.intersperse]
        · simp only [List.length_cons] at hlen
          omega

/-- Witness for C8 at a concrete input: the parsed form of `a-b-c` renders
back to `a-b-c`. -/
theorem c8_parse_roundtrip_witness :
    Triplet.render ⟨str "a", str "b", str "c", none⟩ = str "a-b-c" :=
  c8_parse_roundtrip.2 (str "a-b-c") ⟨str "a", str "b", str "c", none⟩
    (by decide) (by decide)

/-- Counterexample to claim C9: parsing does not require the segments to be
non-empty.  The string `--` splits into three segments, all of them empty —
zero non-empty segments — and parsing succeeds with empty arch, vendor and
os. -/
theorem c9_empty_segments_cex :
    tripletFromStr (str "--") = Except.ok ⟨[], [], [], none⟩ ∧
    (((str "--").splitOn '-').filter (fun seg => !seg.isEmpty)).length = 0 := by
  decide

/-- Claim C9 as amended: parsing splits on `-` and succeeds exactly when the
input has at least three hyphen-delimited segments — segments may be empty —
with the fourth segment, when present, taken as the libc flavour; every input
with fewer than three segments fails with a triplet-parse error. -/
theorem c9_parse_segments (s : Str) :
    (3 ≤ (s.splitOn '-').length →
      ∃ a b c rest, s.splitOn '-' = a :: b :: c :: rest ∧
        tripletFromStr s = Except.ok ⟨a, b, c, rest.head?⟩) ∧
    ((s.splitOn '-').length < 3 → ∃ e, tripletFromStr s = Except.error e) ∧
    (∀ t, tripletFromStr s = Except.ok t → 3 ≤ (s.splitOn '-').length) := by
  refine ⟨?_, ?_, ?_⟩
  · intro hlen
    rcases hsp : s.splitOn '-' with _ | ⟨a, _ | ⟨b, _ | ⟨c, rest⟩⟩⟩
    · rw [hsp] at hlen; simp at hlen
    · rw [hsp] at hlen; simp at hlen
    · rw [hsp] at hlen; simp at hlen
    · exact ⟨a, b, c, rest, rfl, by unfold tripletFromStr; rw [hsp]⟩
  · intro hlen
    rcases hsp : s.splitOn '-' with _ | ⟨a, _ | ⟨b, _ | ⟨c, rest⟩⟩⟩
    · exact ⟨_, by unfold tripletFromStr; rw [hsp]⟩
    · exact ⟨_, by unfold tripletFromStr; rw [hsp]⟩
    · exact ⟨_, by unfold tripletFromStr; rw [hsp]⟩
    · rw [hsp] at hlen
      simp only [List.length_cons] at hlen
      omega
  · intro t ht
    rcases hsp : s.splitOn '-' with _ | ⟨a, _ | ⟨b, _ | ⟨c, rest⟩⟩⟩
    · unfold tripletFromStr at ht; rw [hsp] at ht; cases ht
    · unfold tripletFromStr at ht; rw [hsp] at ht; cases ht
    · unfold tripletFromStr at ht; rw [hsp] at ht; cases ht
    · simp only [List.length_cons]
      omega

/-- Witness for C9 at concrete inputs: `a-b-c` (three segments) parses, and
`ab` (one segment) fails with a parse error. -/
theorem c9_parse_segments_witness :
    (∃ a b c rest, (str "a-b-c").splitOn '-' = a :: b :: c :: rest ∧
      tripletFromStr (str "a-b-c") = Except.ok ⟨a, b, c, rest.head?⟩) ∧
    (∃ e, tripletFromStr (str "ab") = Except.error e) :=
  ⟨(c9_parse_segments (str "a-b-c")).1 (by decide),
   (c9_parse_segments (str "ab")).2.1 (by decide)⟩

/-- Claim C1, falsified by the code: `build.spawn()?.wait()?` (src/main.rs:209)
discards the exit status of the build, so the run never aborts with a build
failure.  Formally, the outcome of `main` is completely insensitive to the
exit status, and a concrete run whose build step exited with status 1
proceeds to package and write artifacts for both eligible members instead of
stopping before packaging. -/
theorem c1_build_exit_ignored :
    (∀ (w : MainInput) (n : Nat), mainRun { w with buildExit := n } = mainRun w) ∧
    (mainRun
      { cli := cliFor none (some (str "x86_64-unknown-linux-gnu"))
        manifestRaw := some sampleManifest
        autodetect := none
        buildSpawnOk := true
        buildExit := 1
        env := envAllOk }).2 = none ∧
    (mainRun
      { cli := cliFor none (some (str "x86_64-unknown-linux-gnu"))
        manifestRaw := some sampleManifest
        autodetect := none
        buildSpawnOk := true
        buildExit := 1
        env := envAllOk }).1.map (fun a => a.path) =
      [str "/w/target/x86_64-unknown-linux-gnu/release/../rpm/alpha-1.x86_64.rpm",
       str "/w/target/x86_64-unknown-linux-gnu/release/../rpm/beta-1.x86_64.rpm"] := by
  refine ⟨fun w n => rfl, by decide, by decide⟩

/-- Claim C4, falsified by the code: when no explicit target is supplied and
the autodetection capture yields nothing, `main` evaluates `.unwrap()` on
`None` (src/main.rs:190) and panics; it does not return a typed target
resolution error.  The run stops as a panic — distinct from every
`StopReason.err` — with no artifact written. -/
theorem c4_autodetect_failure_panics (w : MainInput) (m : Manifest)
    (hm : w.manifestRaw = some m)
    (hcli : w.cli.target = none)
    (hauto : w.autodetect = none) :
    mainRun w = ([], some StopReason.panic) ∧
    ∀ e, mainRun w ≠ ([], some (StopReason.err e)) := by
  have h : mainRun w = ([], some StopReason.panic) := by
    unfold mainRun
    rw [hm]
    simp only
    rw [hcli, hauto]
    simp [Option.or]
  refine ⟨h, fun e hne => ?_⟩
  rw [h] at hne
  simp at hne

/-- Witness for C4 at a concrete input: a run with no `--target` flag and a
failed autodetection panics. -/
theorem c4_autodetect_failure_panics_witness :
    mainRun
      { cli := cliFor none none
        manifestRaw := some sampleManifest
        autodetect := none
        buildSpawnOk := true
        buildExit := 0
        env := envAllOk } = ([], some StopReason.panic) ∧
    ∀ e, mainRun
      { cli := cliFor none none
        manifestRaw := some sampleManifest
        autodetect := none
        buildSpawnOk := true
        buildExit := 0
        env := envAllOk } ≠ ([], some (StopReason.err e)) :=
  c4_autodetect_failure_panics _ sampleManifest rfl rfl rfl

/-- Counterexample to claim C6: the member `mypkg` lacking a license makes the
run fail with the fixed message `Missing license`, and that message does not
name the offending member. -/
theorem c6_missing_license_cex :
    processPackage sampleCtx pkgNoLicense = Outcome.err (str "Missing license") ∧
    pkgNoLicense.name = str "mypkg" ∧
    ¬ (str "mypkg") <:+: (str "Missing license") := by
  refine ⟨by decide, rfl, by decide⟩

/-- Claim C6 as amended: a member whose license or description is absent makes
the run fail with a missing-field error — provided packaging reaches the
field checks, i.e. the crate directory and the architecture mapping resolve,
both of which precede them in the source — and no artifact is ever written
for that member: every artifact of any loop run comes from a different,
successfully processed member.  The message names the offending member when
the description is missing (`Missing description in crate <name>`), but the
missing-license message is the fixed text `Missing license`, which does not. -/
theorem c6_missing_field (ctx : Ctx) (p : Package) (cd : Str) (arch : Str)
    (hcd : crateDir ctx.workspaceRoot p = some cd)
    (harch : ctx.triplet.rpmArch = ArchResult.ok arch)
    (hmiss : p.license = none ∨ p.description = none) :
    processPackage ctx p = Outcome.err (missingFieldMsg p) ∧
    (p.license = none → missingFieldMsg p = str "Missing license") ∧
    (∀ lic, p.license = some lic → p.name <:+: missingFieldMsg p) ∧
    (∀ ps ws stop, runLoop ctx ps = (ws, stop) → ∀ a ∈ ws,
      ∃ q, q ∈ ps ∧ q ≠ p ∧ processPackage ctx q = Outcome.ok a) := by
  have hmain := processPackage_missing ctx p cd arch hcd harch hmiss
  refine ⟨hmain, ?_, ?_, ?_⟩
  · intro hl
    simp [missingFieldMsg, hl]
  · intro lic hl
    have hmsg : missingFieldMsg p = str "Missing description in crate " ++ p.name := by
      simp [missingFieldMsg, hl]
    rw [hmsg]
    exact (List.suffix_append _ _).isInfix
  · intro ps ws stop hrun a ha
    obtain ⟨q, hq, hqe, hqa⟩ := runLoop_writes ctx ps ws stop hrun a ha
    refine ⟨q, hq, ?_, hqa⟩
    intro hqp
    rw [hqp, hmain] at hqa
    cases hqa

/-- Witness for C6 at a concrete input: the eligible member `mypkg` with no
license, in a context whose crate directory and architecture resolve. -/
theorem c6_missing_field_witness :
    processPackage sampleCtx pkgNoLicense = Outcome.err (missingFieldMsg pkgNoLicense) ∧
    (pkgNoLicense.license = none → missingFieldMsg pkgNoLicense = str "Missing license") ∧
    (∀ lic, pkgNoLicense.license = some lic →
      pkgNoLicense.name <:+: missingFieldMsg pkgNoLicense) ∧
    (∀ ps ws stop, runLoop sampleCtx ps = (ws, stop) → ∀ a ∈ ws,
      ∃ q, q ∈ ps ∧ q ≠ pkgNoLicense ∧ processPackage sampleCtx q = Outcome.ok a) :=
  c6_missing_field sampleCtx pkgNoLicense (str "/w") (str "x86_64") rfl
    (by decide) (Or.inl rfl)

/-- Claim C7: in a run that stops for no reason, the artifacts written
correspond one-to-one, in manifest order, to the eligible members passing the
optional member-name filter — a member is eligible exactly when one of its
targets has kind `bin` — and each artifact is written to
`<rpm-dir>/<name>-<version>.<mapped-arch>.rpm`; ineligible or non-matching
members produce nothing. -/
theorem c7_one_artifact_per_member (w : MainInput) (m : Manifest) (ts : Str)
    (tr : Triplet) (ws : List Artifact)
    (hm : w.manifestRaw = some m)
    (hts : w.cli.target.or w.autodetect = some ts)
    (htr : tripletFromStr ts = Except.ok tr)
    (hrun : mainRun w = (ws, none)) :
    List.Forall₂
      (fun p a => processPackage (mkCtx w m tr) p = Outcome.ok a ∧
        ∃ cd arch, crateDir m.workspace_root p = some cd ∧
          tr.rpmArch = ArchResult.ok arch ∧
          a.path = pathJoin (pathJoin (pathJoin cd
            (str "target/" ++ (w.cli.target.getD []) ++ str "/release"))
            (str "../rpm")) (artifactName p arch))
      ((m.packages.filter (matchesFilter w.cli.package)).filter eligible) ws := by
  cases hb : w.buildSpawnOk with
  | false =>
    have hio : mainRun w = ([], some (StopReason.err (str "io error"))) := by
      unfold mainRun
      rw [hm]
      simp only
      rw [hts]
      simp only
      rw [htr]
      simp only
      rw [hb]
      simp
    rw [hio] at hrun
    simp at hrun
  | true =>
    rw [mainRun_loop w m ts tr hm hts htr hb] at hrun
    have h2 := runLoop_success _ _ _ hrun
    refine h2.imp ?_
    intro p a hpa
    obtain ⟨cd, arch, hcd, harch, hpath⟩ := processPackage_ok_path _ _ _ hpa
    exact ⟨hpa, cd, arch, hcd, harch, hpath⟩

/-- Witness for C7 at a concrete input: the two-member workspace with the
filter `alpha` writes exactly one artifact, named after `alpha`. -/
theorem c7_one_artifact_per_member_witness :
    List.Forall₂
      (fun p a => processPackage (mkCtx filteredRunInput sampleManifest sampleTriplet) p
          = Outcome.ok a ∧
        ∃ cd arch, crateDir sampleManifest.workspace_root p = some cd ∧
          sampleTriplet.rpmArch = ArchResult.ok arch ∧
          a.path = pathJoin (pathJoin (pathJoin cd
            (str "target/" ++ (filteredRunInput.cli.target.getD []) ++ str "/release"))
            (str "../rpm")) (artifactName p arch))
      ((sampleManifest.packages.filter (matchesFilter filteredRunInput.cli.package)).filter
        eligible)
      (mainRun filteredRunInput).1 ∧
    (mainRun filteredRunInput).1.map (fun a => a.path) =
      [str "/w/target/x86_64-unknown-linux-gnu/release/../rpm/alpha-1.x86_64.rpm"] := by
  refine ⟨?_, by decide⟩
  exact c7_one_artifact_per_member filteredRunInput sampleManifest
    (str "x86_64-unknown-linux-gnu") sampleTriplet (mainRun filteredRunInput).1
    rfl rfl (by decide) rfl

/-- Claim C10: when the packaging loop reaches a member that fails with an
error before its output file would be opened — a missing license or
description, an unsupported architecture, an invalid asset file type, a
signing failure — and the filtered members before it processed successfully,
the run stops with exactly that error; the artifacts already written are
exactly those of the earlier eligible members, which the loop never deletes
or rewrites, and no artifact is produced for the failing member or for any
member after it. -/
theorem c10_abort_keeps_earlier_artifacts (w : MainInput) (m : Manifest) (ts : Str)
    (tr : Triplet) (ps₁ : List Package) (p : Package) (ps₂ : List Package) (e : Str)
    (hm : w.manifestRaw = some m)
    (hts : w.cli.target.or w.autodetect = some ts)
    (htr : tripletFromStr ts = Except.ok tr)
    (hb : w.buildSpawnOk = true)
    (hsplit : m.packages.filter (matchesFilter w.cli.package) = ps₁ ++ p :: ps₂)
    (hok : ∀ q ∈ ps₁, eligible q = true →
      ∃ a, processPackage (mkCtx w m tr) q = Outcome.ok a)
    (hel : eligible p = true)
    (herr : processPackage (mkCtx w m tr) p = Outcome.err e) :
    ∃ ws, mainRun w = (ws, some (StopReason.err e)) ∧
      List.Forall₂ (fun q a => processPackage (mkCtx w m tr) q = Outcome.ok a)
        (ps₁.filter eligible) ws := by
  obtain ⟨ws, hrun, hfa⟩ := runLoop_stops (mkCtx w m tr) ps₁ p ps₂ e hok hel herr
  refine ⟨ws, ?_, hfa⟩
  rw [mainRun_loop w m ts tr hm hts htr hb, hsplit]
  exact hrun

/-- Witness for C10 at a concrete input: in the three-member workspace whose
second member lacks a license, the run stops with `Missing license`, keeping
exactly the artifact of the first member. -/
theorem c10_abort_keeps_earlier_artifacts_witness :
    ∃ ws, mainRun abortRunInput = (ws, some (StopReason.err (str "Missing license"))) ∧
      List.Forall₂
        (fun q a => processPackage (mkCtx abortRunInput abortManifest sampleTriplet) q
            = Outcome.ok a)
        ([samplePkg "alpha"].filter eligible) ws := by
  refine c10_abort_keeps_earlier_artifacts abortRunInput abortManifest
    (str "x86_64-unknown-linux-gnu") sampleTriplet
    [samplePkg "alpha"] pkgNoLicense [samplePkg "gamma"] (str "Missing license")
    rfl rfl (by decide) rfl rfl ?_ rfl (by decide)
  intro q hq _
  rw [List.mem_singleton] at hq
  subst hq
  exact ⟨_, rfl⟩
